import Mathlib

/-!
# Verification of the mailbox create/transition and paginated listing workflows

Shallow embedding of the email create/transition workflow and the paginated
listing workflow (`listByYearMonth` in `internal/email/common.go`) of the
mailbox repository, together with proofs of the specified properties.

External collaborators (the DynamoDB metadata store, the SES transmission
service, the HTML-to-text extractor) are modelled as explicit parameters:
the store is a list of records, the transmission outcome and store errors
are supplied as values, mirroring how the test doubles inject them.
-/

namespace Mailbox

/-- Error kinds recognized by the workflows (spec §7), plus an `other`
constructor for opaque collaborator errors that are propagated as-is. -/
inductive Err where
  | invalidInput
  | textGeneration
  | sendFailed
  | transitionFailed
  | decode
  | other (msg : String)
deriving DecidableEq, Repr

/-- The closed status enumeration {Draft, Sent} (spec §3). -/
inductive EmailType where
  | draft
  | sent
deriving DecidableEq, Repr

/-- The table name configured for the store (a package-level variable in the
source; its concrete value is irrelevant to the workflows). -/
def tableName : String := "table-for-create"

/-- The name of the composite secondary index (package-level variable). -/
def gsiIndexName : String := "TimeIndex"

/-- The `TimeIndex` projection: `{id, status, timeUpdated}` (spec §3),
embedded in `CreateResult` and returned by the listing workflow. -/
structure TimeIndex where
  messageID : String
  emailType : EmailType
  timeUpdated : String
deriving DecidableEq, Repr

/-- A raw record of the composite secondary index as stored: the partition
key `TypeYearMonth` is the synthesized string `status#year-month` and the
sort key is `TimeUpdated` (spec §3). -/
structure GSIIndex where
  messageID : String
  typeYearMonth : String
  timeUpdated : String
deriving DecidableEq, Repr

/-- Modelled from the spec: the textual form of each status used in the
partition key synthesis `status + "#" + year + "-" + month` (spec §3, §4.2);
the constant definitions live outside `src/`. -/
def EmailType.toStr : EmailType → String
  | .draft => "draft"
  | .sent => "sent"

/-- Modelled from the spec: `GSIIndex.ToTimeIndex` (referenced by
`listByYearMonth` but not under `src/`): re-derive the status from the
partition key `status#year-month`; a malformed partition key is a decode
failure (`ErrDecode` kind, spec §4.2, §7). `none` means the raw record
cannot be decoded into the `TimeIndex` projection. -/
def GSIIndex.toTimeIndex (r : GSIIndex) : Option TimeIndex :=
  if (EmailType.draft.toStr ++ "#").data.isPrefixOf r.typeYearMonth.data then
    some ⟨r.messageID, .draft, r.timeUpdated⟩
  else if (EmailType.sent.toStr ++ "#").data.isPrefixOf r.typeYearMonth.data then
    some ⟨r.messageID, .sent, r.timeUpdated⟩
  else
    none

/-! ## The store-side query model

`listByYearMonth` passes the partition key, `ScanIndexForward = false`, and
the opaque `ExclusiveStartKey` to DynamoDB's `Query`. The store's documented
semantics: serve the items of the requested partition in sort-key order
(descending when `ScanIndexForward` is false), resuming strictly after the
position encoded by `ExclusiveStartKey`, up to an internal page limit, and
return a `LastEvaluatedKey` exactly when the scan stopped early. The token
is the sort key (`TimeUpdated`) of the last served record. -/

/-- The query request built by the workflow (the fields of
`dynamodb.QueryInput` that the workflow sets). -/
structure QueryInput where
  tableName : String
  indexName : String
  exclusiveStartKey : Option String
  keyValue : String
  scanIndexForward : Bool
deriving DecidableEq, Repr

/-- The query response: a page of raw index records and the continuation
key, present exactly when the partition is not exhausted. -/
structure QueryOutput where
  items : List GSIIndex
  lastEvaluatedKey : Option String
deriving DecidableEq, Repr

/-- Lexicographic comparison of character lists (the order in which the
store keeps sort keys within a partition). -/
def charListLt : List Char → List Char → Bool
  | [], [] => false
  | [], _ :: _ => true
  | _ :: _, [] => false
  | a :: as, b :: bs =>
    if a < b then true
    else if b < a then false
    else charListLt as bs

/-- Strict lexicographic comparison of sort-key strings. -/
def keyLt (a b : String) : Bool :=
  charListLt a.data b.data

/-- Whether a record lies strictly after the position encoded by sort key
`k` in a descending scan. -/
def afterKeyDesc (k : String) (r : GSIIndex) : Bool :=
  keyLt r.timeUpdated k

/-- The partition served for a query: the matching records, in descending
sort-key order. The table is kept in ascending index order, so the
descending scan serves its reverse. -/
def partitionDesc (table : List GSIIndex) (q : QueryInput) : List GSIIndex :=
  (table.filter (fun r => r.typeYearMonth = q.keyValue)).reverse

/-- The store's `Query` operation for a descending scan (the only form the
workflow issues): resume strictly after the token, serve up to `pageLimit`
records, and return a continuation key exactly when records remain. -/
def dynamoQuery (table : List GSIIndex) (pageLimit : Nat) (q : QueryInput) :
    QueryOutput :=
  let part := partitionDesc table q
  let after := match q.exclusiveStartKey with
    | none => part
    | some k => part.dropWhile (fun r => ! afterKeyDesc k r)
  { items := after.take pageLimit
    lastEvaluatedKey :=
      if pageLimit < after.length then
        (after.take pageLimit).getLast?.map (·.timeUpdated)
      else none }

/-! ## The listing workflow (`listByYearMonth`, common.go lines 93–157) -/

/-- `listQueryInput` (common.go lines 94–100): note the `order` field, which
is carried but never read by `listByYearMonth`. -/
structure listQueryInput where
  emailType : String
  year : String
  month : String
  order : String
  lastEvaluatedKey : Option String
deriving DecidableEq, Repr

/-- `listQueryResult` (common.go lines 106–109). -/
structure listQueryResult where
  items : List TimeIndex
  lastEvaluatedKey : Option String
deriving DecidableEq, Repr

/-- The `dynamodb.QueryInput` constructed by `listByYearMonth`
(common.go lines 114–129): partition key `emailType + "#" + year + "-" +
month`, `ScanIndexForward = false`, the caller's `lastEvaluatedKey` passed
through as `ExclusiveStartKey`. -/
def listQueryInputToQuery (input : listQueryInput) : QueryInput :=
  { tableName := tableName
    indexName := gsiIndexName
    exclusiveStartKey := input.lastEvaluatedKey
    keyValue := input.emailType ++ "#" ++ input.year ++ "-" ++ input.month
    scanIndexForward := false }

/-- Decode every raw record of a page (common.go lines 135–151): both the
unmarshal step and `ToTimeIndex` fail the whole call on the first bad
record, yielding an `ErrDecode`-kind error and no items. -/
def decodeAll (decode : GSIIndex → Option TimeIndex) :
    List GSIIndex → Except Err (List TimeIndex)
  | [] => .ok []
  | r :: rs =>
    match decode r with
    | none => .error Err.decode
    | some t =>
      match decodeAll decode rs with
      | .error e => .error e
      | .ok ts => .ok (t :: ts)

/-- `listByYearMonth` (common.go lines 113–157): build the query input,
issue the query against the store (modelled by `table` and its internal
`pageLimit`), decode the page, and return items plus the continuation key.
`decode` is a parameter mirroring the injectable `unmarshalListOfMaps` /
`ToTimeIndex` decoding step. -/
def listByYearMonth (table : List GSIIndex) (pageLimit : Nat)
    (decode : GSIIndex → Option TimeIndex) (input : listQueryInput) :
    Except Err listQueryResult :=
  let resp := dynamoQuery table pageLimit (listQueryInputToQuery input)
  (decodeAll decode resp.items).map fun items =>
    { items := items, lastEvaluatedKey := resp.lastEvaluatedKey }

/-! ## The create/transition workflow (spec §4.1)

The `Create` function of the repository is exercised by
`internal/email/create_test.go` but its body is not under `src/`; it is
modelled from the spec below. Collaborator behavior (store errors, the
transmission outcome, the extractor, the injectable clock and random
suffix) is supplied through `CreateEnv`, mirroring the test doubles. -/

/-- The text-generation mode ∈ {off, auto, on} (spec §4.1 step 1). -/
inductive GenerateTextMode where
  | off
  | auto
  | on
deriving DecidableEq, Repr

/-- `EmailInput`: the email payload carried through unchanged (spec §3). -/
structure EmailInput where
  subject : String
  «from» : List String
  «to» : List String
  cc : List String
  bcc : List String
  replyTo : List String
  text : String
  html : String
deriving DecidableEq, Repr

/-- `CreateInput`: the payload plus the text-generation mode and the
`send` flag (spec §4.1). -/
structure CreateInput where
  emailInput : EmailInput
  generateText : GenerateTextMode
  send : Bool
deriving DecidableEq, Repr

/-- `CreateResult`: the `TimeIndex` fields plus the payload fields. -/
structure CreateResult where
  messageID : String
  emailType : EmailType
  timeUpdated : String
  subject : String
  «from» : List String
  «to» : List String
  cc : List String
  bcc : List String
  replyTo : List String
  text : String
  html : String
deriving DecidableEq, Repr

/-- The metadata store's record table, keyed by message identifier. -/
abbrev Store := List (String × CreateResult)

/-- Look a record up by its identifier. -/
def storeGet (s : Store) (id : String) : Option CreateResult :=
  (s.find? (fun p => p.1 = id)).map (·.2)

/-- Insert a record (replacing any record under the same identifier). -/
def storePut (s : Store) (id : String) (r : CreateResult) : Store :=
  (id, r) :: s.filter (fun p => p.1 ≠ id)

/-- Delete a record by its identifier. -/
def storeDelete (s : Store) (id : String) : Store :=
  s.filter (fun p => p.1 ≠ id)

/-- One item of the atomic transition transaction (spec §4.1 step 7):
a delete keyed by an identifier or an insert of a full record. -/
inductive TransactItem where
  | deleteKey (tableName : String) (messageID : String)
  | putRecord (tableName : String) (rec : CreateResult)
deriving DecidableEq, Repr

/-- The calls the workflow makes to its collaborators: how many times the
transmission service was invoked, and the item list of every atomic
transaction submitted to the store. -/
structure CreateTrace where
  sendCalls : Nat
  transactCalls : List (List TransactItem)
deriving DecidableEq, Repr

/-- Collaborator behavior injected into one `Create` invocation, mirroring
the mock API of `create_test.go`: the store's answer to the insert, the
transmission outcome (`ok` carries the externally-assigned identifier), the
store's answer to the atomic transaction, the HTML-to-text extractor
(`none` = extraction failure), the random draft suffix, and the clock. -/
structure CreateEnv where
  putItemErr : Option Err
  sendEmail : Except Err String
  transactErr : Option Err
  generateText : String → Option String
  draftSuffix : String
  now : String

/-- The outcome of one `Create` invocation: the returned value or error,
the store contents afterwards, and the collaborator-call trace. -/
structure CreateOutcome where
  result : Except Err CreateResult
  store : Store
  trace : CreateTrace

/-- Modelled from the spec: step 1 of `Create` (spec §4.1). Mode `off` uses
`text` as given (even if empty); `on` always recomputes text from `html`,
failing with the `ErrTextGeneration` kind when extraction fails; `auto`
recomputes only when `text` is empty, and an extraction failure still
fails the whole operation. -/
def resolveText (mode : GenerateTextMode) (text html : String)
    (gen : String → Option String) : Except Err String :=
  match mode with
  | .off => .ok text
  | .on =>
    match gen html with
    | some t => .ok t
    | none => .error Err.textGeneration
  | .auto =>
    if text = "" then
      match gen html with
      | some t => .ok t
      | none => .error Err.textGeneration
    else .ok text

/-- The fixed literal prefix of a locally-generated draft identifier. -/
def draftIDPrefix : String := "draft-"

/-- The full Draft record built in step 2 (spec §4.1): locally-generated
identifier, `status = Draft`, `timeUpdated = now()`, resolved text, and the
payload carried through unchanged. -/
def mkDraftRecord (input : CreateInput) (txt suffix now : String) :
    CreateResult :=
  { messageID := draftIDPrefix ++ suffix
    emailType := .draft
    timeUpdated := now
    subject := input.emailInput.subject
    «from» := input.emailInput.«from»
    «to» := input.emailInput.«to»
    cc := input.emailInput.cc
    bcc := input.emailInput.bcc
    replyTo := input.emailInput.replyTo
    text := txt
    html := input.emailInput.html }

/-- Modelled from the spec: `Create(input) → (EmailRecord, error)`
(spec §4.1, steps 1–8; the function body is exercised by
`create_test.go` but not under `src/`). Steps in order: resolve text,
build the Draft record, persist it unconditionally, stop there when
`send` is false; otherwise transmit, build the Sent record under the
external identifier with the same `timeUpdated`, and submit the atomic
delete+insert transaction. Every step-local error returns immediately. -/
def Create (env : CreateEnv) (store : Store) (input : CreateInput) :
    CreateOutcome :=
  match resolveText input.generateText input.emailInput.text
      input.emailInput.html env.generateText with
  | .error e => ⟨.error e, store, ⟨0, []⟩⟩
  | .ok txt =>
    let draft := mkDraftRecord input txt env.draftSuffix env.now
    match env.putItemErr with
    | some e => ⟨.error e, store, ⟨0, []⟩⟩
    | none =>
      let store1 := storePut store draft.messageID draft
      if input.send = false then
        ⟨.ok draft, store1, ⟨0, []⟩⟩
      else
        match env.sendEmail with
        | .error e => ⟨.error e, store1, ⟨1, []⟩⟩
        | .ok sentID =>
          let sentRec := { draft with messageID := sentID, emailType := .sent }
          let items := [TransactItem.deleteKey tableName draft.messageID,
                        TransactItem.putRecord tableName sentRec]
          match env.transactErr with
          | some e => ⟨.error e, store1, ⟨1, [items]⟩⟩
          | none =>
            ⟨.ok sentRec,
             storePut (storeDelete store1 draft.messageID) sentID sentRec,
             ⟨1, [items]⟩⟩

/-! ## Store helper lemmas -/

theorem storeGet_storePut_self (s : Store) (id : String) (r : CreateResult) :
    storeGet (storePut s id r) id = some r := by
  simp [storeGet, storePut]

theorem find_filter_ne (id id' : String) (h : id' ≠ id) :
    ∀ s : Store,
      List.find? (fun p => decide (p.1 = id'))
          (s.filter (fun p => decide (p.1 ≠ id))) =
        List.find? (fun p => decide (p.1 = id')) s
  | [] => rfl
  | p :: ps => by
    by_cases hp : p.1 = id
    · have h2 : p.1 ≠ id' := fun he => h (hp ▸ he.symm)
      rw [List.filter_cons_of_neg (by simp [hp]),
        List.find?_cons_of_neg _ (by simp [h2]),
        find_filter_ne id id' h ps]
    · rw [List.filter_cons_of_pos (by simp [hp])]
      by_cases hq : p.1 = id'
      · rw [List.find?_cons_of_pos _ (by simp [hq]),
          List.find?_cons_of_pos _ (by simp [hq])]
      · rw [List.find?_cons_of_neg _ (by simp [hq]),
          List.find?_cons_of_neg _ (by simp [hq]),
          find_filter_ne id id' h ps]

theorem storeGet_storePut_ne (s : Store) (id id' : String) (r : CreateResult)
    (h : id' ≠ id) : storeGet (storePut s id r) id' = storeGet s id' := by
  simp only [storeGet, storePut]
  rw [List.find?_cons_of_neg _ (by simpa using fun he => h he.symm)]
  exact congrArg _ (find_filter_ne id id' h s)

/-! ## Create/transition theorems -/

/-- C1: on the `send=true` success path, `Create` returns a Sent record
keyed by the transmission service's identifier (not the local draft id)
with the draft's `timeUpdated`, and submits exactly one atomic transaction
of exactly two items: a delete keyed by the draft id and an insert keyed by
the sent id. -/
theorem create_send_success (env : CreateEnv) (store : Store)
    (input : CreateInput) (txt sid : String)
    (htext : resolveText input.generateText input.emailInput.text
      input.emailInput.html env.generateText = .ok txt)
    (hput : env.putItemErr = none)
    (hs : input.send = true)
    (hsend : env.sendEmail = .ok sid)
    (htx : env.transactErr = none) :
    ∃ r, (Create env store input).result = .ok r ∧
      r.emailType = .sent ∧
      r.messageID = sid ∧
      r.timeUpdated = (mkDraftRecord input txt env.draftSuffix env.now).timeUpdated ∧
      (Create env store input).trace.transactCalls =
        [[TransactItem.deleteKey tableName
            (mkDraftRecord input txt env.draftSuffix env.now).messageID,
          TransactItem.putRecord tableName r]] := by
  refine ⟨{ mkDraftRecord input txt env.draftSuffix env.now with
            messageID := sid, emailType := .sent }, ?_⟩
  simp [Create, htext, hput, hs, hsend, htx]

/-- C2: if the unconditional draft insert fails, `Create` returns the
store's error, the transmission service is never invoked, no transaction is
submitted, and the store is unchanged. -/
theorem create_put_error (env : CreateEnv) (store : Store)
    (input : CreateInput) (txt : String) (e : Err)
    (htext : resolveText input.generateText input.emailInput.text
      input.emailInput.html env.generateText = .ok txt)
    (hput : env.putItemErr = some e) :
    (Create env store input).result = .error e ∧
    (Create env store input).trace.sendCalls = 0 ∧
    (Create env store input).trace.transactCalls = [] ∧
    (Create env store input).store = store := by
  simp [Create, htext, hput]

/-- C3: with `send=true`, if transmission fails, `Create` returns the
transmission error as-is, no transition transaction is attempted, and the
Draft record remains persisted unchanged and retrievable. -/
theorem create_send_failure (env : CreateEnv) (store : Store)
    (input : CreateInput) (txt : String) (e : Err)
    (htext : resolveText input.generateText input.emailInput.text
      input.emailInput.html env.generateText = .ok txt)
    (hput : env.putItemErr = none)
    (hs : input.send = true)
    (hsend : env.sendEmail = .error e) :
    (Create env store input).result = .error e ∧
    (Create env store input).trace.transactCalls = [] ∧
    (Create env store input).store =
      storePut store (mkDraftRecord input txt env.draftSuffix env.now).messageID
        (mkDraftRecord input txt env.draftSuffix env.now) ∧
    storeGet (Create env store input).store
        (mkDraftRecord input txt env.draftSuffix env.now).messageID =
      some (mkDraftRecord input txt env.draftSuffix env.now) := by
  refine ⟨?_, ?_, ?_, ?_⟩ <;>
    simp [Create, htext, hput, hs, hsend, storeGet_storePut_self]

/-- C4: if the atomic delete+insert transaction fails after a successful
transmission, `Create` returns the transaction's error, the Draft record
is still present under its local identifier, no Sent record is recorded,
and the transmission and the transaction were each attempted exactly once
(no automatic repair or retry). -/
theorem create_transition_failure (env : CreateEnv) (store : Store)
    (input : CreateInput) (txt sid : String) (e : Err)
    (htext : resolveText input.generateText input.emailInput.text
      input.emailInput.html env.generateText = .ok txt)
    (hput : env.putItemErr = none)
    (hs : input.send = true)
    (hsend : env.sendEmail = .ok sid)
    (htx : env.transactErr = some e)
    (hfresh : storeGet store sid = none)
    (hne : sid ≠ (mkDraftRecord input txt env.draftSuffix env.now).messageID) :
    (Create env store input).result = .error e ∧
    storeGet (Create env store input).store
        (mkDraftRecord input txt env.draftSuffix env.now).messageID =
      some (mkDraftRecord input txt env.draftSuffix env.now) ∧
    storeGet (Create env store input).store sid = none ∧
    (Create env store input).trace.sendCalls = 1 ∧
    (Create env store input).trace.transactCalls.length = 1 := by
  have hstore : (Create env store input).store =
      storePut store (mkDraftRecord input txt env.draftSuffix env.now).messageID
        (mkDraftRecord input txt env.draftSuffix env.now) := by
    simp [Create, htext, hput, hs, hsend, htx]
  refine ⟨?_, ?_, ?_, ?_, ?_⟩
  · simp [Create, htext, hput, hs, hsend, htx]
  · rw [hstore]; exact storeGet_storePut_self ..
  · rw [hstore, storeGet_storePut_ne _ _ _ _ hne]; exact hfresh
  · simp [Create, htext, hput, hs, hsend, htx]
  · simp [Create, htext, hput, hs, hsend, htx]

/-- C7: `Create` resolves the plain-text body by mode: `off` keeps the
supplied text exactly (even if empty); `auto` uses the extraction of `html`
exactly when the supplied text is empty and otherwise keeps the supplied
text regardless of `html`; `on` always uses the extraction of `html`,
overwriting any supplied text. -/
theorem create_text_mode (env : CreateEnv) (store : Store)
    (input : CreateInput)
    (hput : env.putItemErr = none)
    (hs : input.send = false) :
    (input.generateText = .off →
      ∃ r, (Create env store input).result = .ok r ∧
        r.text = input.emailInput.text) ∧
    (input.generateText = .auto → input.emailInput.text ≠ "" →
      ∃ r, (Create env store input).result = .ok r ∧
        r.text = input.emailInput.text) ∧
    (∀ t, input.generateText = .auto → input.emailInput.text = "" →
      env.generateText input.emailInput.html = some t →
      ∃ r, (Create env store input).result = .ok r ∧ r.text = t) ∧
    (∀ t, input.generateText = .on →
      env.generateText input.emailInput.html = some t →
      ∃ r, (Create env store input).result = .ok r ∧ r.text = t) := by
  refine ⟨?_, ?_, ?_, ?_⟩
  · intro hm
    exact ⟨mkDraftRecord input input.emailInput.text env.draftSuffix env.now,
      by simp [Create, resolveText, hm, hput, hs], by simp [mkDraftRecord]⟩
  · intro hm hne
    exact ⟨mkDraftRecord input input.emailInput.text env.draftSuffix env.now,
      by simp [Create, resolveText, hm, hne, hput, hs], by simp [mkDraftRecord]⟩
  · intro t hm hemp hgen
    exact ⟨mkDraftRecord input t env.draftSuffix env.now,
      by simp [Create, resolveText, hm, hemp, hgen, hput, hs],
      by simp [mkDraftRecord]⟩
  · intro t hm hgen
    exact ⟨mkDraftRecord input t env.draftSuffix env.now,
      by simp [Create, resolveText, hm, hgen, hput, hs],
      by simp [mkDraftRecord]⟩

/-- C8: if extraction of text from `html` fails — always under `mode=on`,
and under `mode=auto` when the supplied text is empty — `Create` fails the
whole operation with an `ErrTextGeneration`-kind error. -/
theorem create_textgen_failure (env : CreateEnv) (store : Store)
    (input : CreateInput)
    (hmode : input.generateText = .on ∨
      (input.generateText = .auto ∧ input.emailInput.text = ""))
    (hgen : env.generateText input.emailInput.html = none) :
    (Create env store input).result = .error Err.textGeneration := by
  rcases hmode with hm | ⟨hm, hemp⟩
  · simp [Create, resolveText, hm, hgen]
  · simp [Create, resolveText, hm, hemp, hgen]

/-! ## Sort-key order lemmas -/

theorem charListLt_irrefl : ∀ xs, charListLt xs xs = false
  | [] => rfl
  | a :: as => by
    show (if a < a then true else if a < a then false
      else charListLt as as) = false
    rw [if_neg (lt_irrefl a), if_neg (lt_irrefl a)]
    exact charListLt_irrefl as

theorem charListLt_asymm :
    ∀ xs ys, charListLt xs ys = true → charListLt ys xs = false
  | [], [], h => by cases h
  | [], _ :: _, _ => rfl
  | _ :: _, [], h => by cases h
  | a :: as, b :: bs, h => by
    have h' : (if a < b then true else if b < a then false
        else charListLt as bs) = true := h
    show (if b < a then true else if a < b then false
      else charListLt bs as) = false
    by_cases hab : a < b
    · rw [if_neg (lt_asymm hab), if_pos hab]
    · by_cases hba : b < a
      · rw [if_neg hab, if_pos hba] at h'
        cases h'
      · rw [if_neg hab, if_neg hba] at h'
        rw [if_neg hba, if_neg hab]
        exact charListLt_asymm as bs h'

theorem keyLt_irrefl (s : String) : keyLt s s = false :=
  charListLt_irrefl s.data

theorem keyLt_asymm {s t : String} (h : keyLt s t = true) :
    keyLt t s = false :=
  charListLt_asymm s.data t.data h

/-! ## Scan-resumption lemmas -/

theorem getLastOpt_mem {α : Type} {l : List α} {b : α}
    (h : l.getLast? = some b) : b ∈ l := by
  obtain ⟨hne, hb⟩ := List.mem_getLast?_eq_getLast (Option.mem_def.mpr h)
  exact hb ▸ List.getLast_mem hne

/-- In a strictly descending partition, resuming with the sort key of the
last record of the first `n` records drops exactly those `n` records: the
boundary record is not re-emitted and no record is skipped. -/
theorem dropWhile_after_take (b : GSIIndex) :
    ∀ (l : List GSIIndex) (n : Nat),
      l.Pairwise (fun x y => keyLt y.timeUpdated x.timeUpdated = true) →
      (l.take n).getLast? = some b →
      l.dropWhile (fun r => ! afterKeyDesc b.timeUpdated r) = l.drop n := by
  intro l
  induction l with
  | nil => intro n _ hb; simp at hb
  | cons x xs ih =>
    intro n hs hb
    cases n with
    | zero => simp at hb
    | succ m =>
      rw [List.take_succ_cons] at hb
      have hpx : ∀ y ∈ xs, keyLt y.timeUpdated x.timeUpdated = true :=
        (List.pairwise_cons.mp hs).1
      have hs' : xs.Pairwise
          (fun x y => keyLt y.timeUpdated x.timeUpdated = true) :=
        (List.pairwise_cons.mp hs).2
      cases htm : xs.take m with
      | nil =>
        rw [htm] at hb
        have hbx : x = b := by simpa using hb
        subst hbx
        rw [List.drop_succ_cons]
        have hcx : (! afterKeyDesc x.timeUpdated x) = true := by
          simp [afterKeyDesc, keyLt_irrefl]
        rcases List.take_eq_nil_iff.mp htm with hm0 | hxs
        · subst hm0
          rw [List.dropWhile_cons, if_pos hcx, List.drop_zero]
          cases xs with
          | nil => rfl
          | cons y ys =>
            have hy : afterKeyDesc x.timeUpdated y = true :=
              hpx y (by simp)
            rw [List.dropWhile_cons, if_neg (by simp [hy])]
        · subst hxs
          rw [List.dropWhile_cons, if_pos hcx, List.dropWhile_nil,
            List.drop_nil]
      | cons c cs =>
        rw [htm, List.getLast?_cons_cons] at hb
        have hb' : (xs.take m).getLast? = some b := by
          rw [htm]
          exact hb
        have hbmem : b ∈ xs := List.take_subset m xs (getLastOpt_mem hb')
        have hkb : keyLt b.timeUpdated x.timeUpdated = true := hpx b hbmem
        have hcond : (! afterKeyDesc b.timeUpdated x) = true := by
          simp [afterKeyDesc, keyLt_asymm hkb]
        rw [List.drop_succ_cons, List.dropWhile_cons, if_pos hcond]
        exact ih m hs' hb'

/-! ## Decoding lemmas -/

theorem decodeAll_ok_map (decode : GSIIndex → Option TimeIndex)
    (hpres : ∀ r t, decode r = some t → t.timeUpdated = r.timeUpdated) :
    ∀ xs ts, decodeAll decode xs = .ok ts →
      ts.map (·.timeUpdated) = xs.map (·.timeUpdated) := by
  intro xs
  induction xs with
  | nil =>
    intro ts h
    simp only [decodeAll, Except.ok.injEq] at h
    subst h
    rfl
  | cons x xs ih =>
    intro ts h
    simp only [decodeAll] at h
    cases hd : decode x with
    | none => simp [hd] at h
    | some t =>
      simp only [hd] at h
      cases hrec : decodeAll decode xs with
      | error e => simp [hrec] at h
      | ok us =>
        simp only [hrec, Except.ok.injEq] at h
        subst h
        simp [hpres x t hd, ih us hrec]

theorem decodeAll_append (decode : GSIIndex → Option TimeIndex) :
    ∀ xs ys as bs, decodeAll decode xs = .ok as →
      decodeAll decode ys = .ok bs →
      decodeAll decode (xs ++ ys) = .ok (as ++ bs) := by
  intro xs
  induction xs with
  | nil =>
    intro ys as bs hx hy
    simp only [decodeAll, Except.ok.injEq] at hx
    subst hx
    simpa using hy
  | cons x xs ih =>
    intro ys as bs hx hy
    simp only [decodeAll] at hx
    cases hd : decode x with
    | none => simp [hd] at hx
    | some t =>
      simp only [hd] at hx
      cases hrec : decodeAll decode xs with
      | error e => simp [hrec] at hx
      | ok us =>
        simp only [hrec, Except.ok.injEq] at hx
        subst hx
        simp only [List.cons_append, decodeAll, hd, List.append_eq,
          ih ys us bs hrec hy]

theorem decodeAll_error_of_mem (decode : GSIIndex → Option TimeIndex) :
    ∀ xs, (∃ r ∈ xs, decode r = none) →
      decodeAll decode xs = .error Err.decode := by
  intro xs
  induction xs with
  | nil => intro h; simp at h
  | cons x xs ih =>
    intro h
    rcases h with ⟨r, hr, hdec⟩
    rcases List.mem_cons.mp hr with rfl | hmem
    · simp [decodeAll, hdec]
    · cases hd : decode x with
      | none => simp [decodeAll, hd]
      | some t => simp [decodeAll, hd, ih ⟨r, hmem, hdec⟩]

/-- The raw page served by a query is a sublist of the descending
partition. -/
theorem dynamoQuery_items_sublist (table : List GSIIndex) (pageLimit : Nat)
    (q : QueryInput) :
    List.Sublist (dynamoQuery table pageLimit q).items
      (partitionDesc table q) := by
  rcases hk : q.exclusiveStartKey with _ | k
  · simp only [dynamoQuery, hk]
    exact List.take_sublist pageLimit _
  · simp only [dynamoQuery, hk]
    exact (List.take_sublist pageLimit _).trans (List.dropWhile_sublist _)

/-! ## Listing theorems -/

/-- C5: the listing workflow queries the composite secondary index for
exactly the partition keyed `status + "#" + year + "-" + month`, and the
records of each returned page are ordered by `timeUpdated` strictly
descending (most recent first), given a well-formed (strictly descending)
index partition and a decoding step that preserves `timeUpdated`. -/
theorem listByYearMonth_partition_order (table : List GSIIndex)
    (pageLimit : Nat) (decode : GSIIndex → Option TimeIndex)
    (input : listQueryInput)
    (hsorted : (partitionDesc table (listQueryInputToQuery input)).Pairwise
      (fun a b => keyLt b.timeUpdated a.timeUpdated = true))
    (hpres : ∀ r t, decode r = some t → t.timeUpdated = r.timeUpdated) :
    (listQueryInputToQuery input).keyValue =
      input.emailType ++ "#" ++ input.year ++ "-" ++ input.month ∧
    (listQueryInputToQuery input).indexName = gsiIndexName ∧
    ∀ res, listByYearMonth table pageLimit decode input = .ok res →
      (res.items.map (·.timeUpdated)).Pairwise
        (fun a b => keyLt b a = true) := by
  refine ⟨rfl, rfl, ?_⟩
  intro res hres
  simp only [listByYearMonth] at hres
  cases hdec : decodeAll decode
      (dynamoQuery table pageLimit (listQueryInputToQuery input)).items with
  | error e => simp [hdec, Except.map] at hres
  | ok items =>
    simp only [hdec, Except.map, Except.ok.injEq] at hres
    subst hres
    have hmap := decodeAll_ok_map decode hpres _ items hdec
    show (items.map (·.timeUpdated)).Pairwise (fun a b => keyLt b a = true)
    rw [hmap]
    apply List.pairwise_map.mpr
    exact hsorted.sublist (dynamoQuery_items_sublist table pageLimit _)

/-- C9: if any raw record of a page cannot be decoded into the `TimeIndex`
projection, the whole listing call fails with an `ErrDecode`-kind error and
returns no items and no continuation token. -/
theorem listByYearMonth_decode_failure (table : List GSIIndex)
    (pageLimit : Nat) (decode : GSIIndex → Option TimeIndex)
    (input : listQueryInput)
    (hbad : ∃ r ∈ (dynamoQuery table pageLimit
      (listQueryInputToQuery input)).items, decode r = none) :
    listByYearMonth table pageLimit decode input = .error Err.decode := by
  simp only [listByYearMonth]
  rw [decodeAll_error_of_mem decode _ hbad]
  rfl

/-- C10: the listing input's `order` field is ignored: the query is always
issued with `ScanIndexForward = false`, and the result is the same whatever
`order` the caller supplies. -/
theorem listByYearMonth_order_ignored (table : List GSIIndex)
    (pageLimit : Nat) (decode : GSIIndex → Option TimeIndex)
    (input : listQueryInput) (o : String) :
    (listQueryInputToQuery input).scanIndexForward = false ∧
    listByYearMonth table pageLimit decode { input with order := o } =
      listByYearMonth table pageLimit decode input :=
  ⟨rfl, rfl⟩

/-- C6: a continuation token obtained from a partial page resumes the scan
strictly after the boundary record — no re-emission, no skip: over a
strictly descending partition, the first page (internal limit `limit1`,
which yielded token `k`) concatenated with the page resumed at `k`
(internal limit `limit2`) equals the single scan served with limit
`limit1 + limit2`, including its continuation token. -/
theorem listByYearMonth_pagination (table : List GSIIndex)
    (limit1 limit2 : Nat) (decode : GSIIndex → Option TimeIndex)
    (input : listQueryInput)
    (hsorted : (partitionDesc table (listQueryInputToQuery input)).Pairwise
      (fun a b => keyLt b.timeUpdated a.timeUpdated = true))
    (hl2 : 0 < limit2)
    (o1 o2 : listQueryResult) (k : String)
    (h1 : listByYearMonth table limit1 decode
      { input with lastEvaluatedKey := none } = .ok o1)
    (hk : o1.lastEvaluatedKey = some k)
    (h2 : listByYearMonth table limit2 decode
      { input with lastEvaluatedKey := some k } = .ok o2) :
    listByYearMonth table (limit1 + limit2) decode
      { input with lastEvaluatedKey := none } =
      .ok { items := o1.items ++ o2.items,
            lastEvaluatedKey := o2.lastEvaluatedKey } := by
  have hq1 : listByYearMonth table limit1 decode
      { input with lastEvaluatedKey := none } =
      (decodeAll decode ((partitionDesc table
        (listQueryInputToQuery input)).take limit1)).map fun items =>
        { items := items
          lastEvaluatedKey :=
            if limit1 <
                (partitionDesc table (listQueryInputToQuery input)).length
            then ((partitionDesc table
              (listQueryInputToQuery input)).take limit1).getLast?.map
                (·.timeUpdated)
            else none } := rfl
  rw [hq1] at h1
  cases hdec1 : decodeAll decode
      ((partitionDesc table (listQueryInputToQuery input)).take limit1) with
  | error e => simp [hdec1, Except.map] at h1
  | ok items1 =>
  simp only [hdec1, Except.map, Except.ok.injEq] at h1
  subst h1
  have hk2 : (if limit1 <
        (partitionDesc table (listQueryInputToQuery input)).length
      then ((partitionDesc table
        (listQueryInputToQuery input)).take limit1).getLast?.map
          (·.timeUpdated)
      else none) = some k := hk
  by_cases hlt1 : limit1 <
      (partitionDesc table (listQueryInputToQuery input)).length
  case neg =>
    rw [if_neg hlt1] at hk2
    exact absurd hk2 (by simp)
  rw [if_pos hlt1] at hk2
  obtain ⟨b, hb, hbk⟩ := Option.map_eq_some'.mp hk2
  subst hbk
  have hafter : (partitionDesc table
      (listQueryInputToQuery input)).dropWhile
        (fun r => ! afterKeyDesc b.timeUpdated r) =
      (partitionDesc table (listQueryInputToQuery input)).drop limit1 :=
    dropWhile_after_take b _ limit1 hsorted hb
  have hq2 : listByYearMonth table limit2 decode
      { input with lastEvaluatedKey := some b.timeUpdated } =
      (decodeAll decode (((partitionDesc table
        (listQueryInputToQuery input)).dropWhile
          (fun r => ! afterKeyDesc b.timeUpdated r)).take limit2)).map
        fun items =>
        { items := items
          lastEvaluatedKey :=
            if limit2 < ((partitionDesc table
                (listQueryInputToQuery input)).dropWhile
                  (fun r => ! afterKeyDesc b.timeUpdated r)).length
            then (((partitionDesc table
              (listQueryInputToQuery input)).dropWhile
                (fun r => ! afterKeyDesc b.timeUpdated r)).take
                  limit2).getLast?.map (·.timeUpdated)
            else none } := rfl
  rw [hq2, hafter] at h2
  cases hdec2 : decodeAll decode (((partitionDesc table
      (listQueryInputToQuery input)).drop limit1).take limit2) with
  | error e => simp [hdec2, Except.map] at h2
  | ok items2 =>
  simp only [hdec2, Except.map, Except.ok.injEq] at h2
  subst h2
  have hqc : listByYearMonth table (limit1 + limit2) decode
      { input with lastEvaluatedKey := none } =
      (decodeAll decode ((partitionDesc table
        (listQueryInputToQuery input)).take (limit1 + limit2))).map
        fun items =>
        { items := items
          lastEvaluatedKey :=
            if limit1 + limit2 <
                (partitionDesc table (listQueryInputToQuery input)).length
            then ((partitionDesc table
              (listQueryInputToQuery input)).take
                (limit1 + limit2)).getLast?.map (·.timeUpdated)
            else none } := rfl
  rw [hqc, List.take_add,
    decodeAll_append decode _ _ _ _ hdec1 hdec2]
  have hlen : ((partitionDesc table
      (listQueryInputToQuery input)).drop limit1).length =
      (partitionDesc table (listQueryInputToQuery input)).length - limit1 :=
    List.length_drop ..
  simp only [Except.map, Except.ok.injEq, listQueryResult.mk.injEq,
    true_and]
  by_cases hc : limit1 + limit2 <
      (partitionDesc table (listQueryInputToQuery input)).length
  · rw [if_pos hc, if_pos (show limit2 < ((partitionDesc table
        (listQueryInputToQuery input)).drop limit1).length by
          rw [hlen]; omega)]
    have hpos : 0 < (((partitionDesc table
        (listQueryInputToQuery input)).drop limit1).take limit2).length := by
      rw [List.length_take, hlen]
      omega
    rw [List.getLast?_append_of_ne_nil _ (List.length_pos.mp hpos)]
  · rw [if_neg hc, if_neg (show ¬ limit2 < ((partitionDesc table
        (listQueryInputToQuery input)).drop limit1).length by
          rw [hlen]; omega)]

/-! ## Concrete fixtures (mirroring `create_test.go`) -/

/-- A concrete email payload, as in the test cases. -/
def sampleEmailInput : EmailInput :=
  { subject := "subject"
    «from» := ["a@example.com"]
    «to» := ["b@example.com"]
    cc := []
    bcc := []
    replyTo := []
    text := "text"
    html := "<p>example</p>" }

/-- A concrete 32-hex-character draft suffix. -/
def sampleSuffix : String := "0123456789abcdef0123456789abcdef"

/-- A concrete extractor that always succeeds. -/
def sampleGen : String → Option String := fun _ => some "example"

/-- A collaborator environment in which every step succeeds. -/
def sampleEnv : CreateEnv :=
  { putItemErr := none
    sendEmail := .ok "sent-message-id"
    transactErr := none
    generateText := sampleGen
    draftSuffix := sampleSuffix
    now := "2022-03-16T16:55:45Z" }

/-- A concrete `send=true` input with mode `off`. -/
def sampleInputSend : CreateInput :=
  { emailInput := sampleEmailInput, generateText := .off, send := true }

/-- A concrete `send=false` input with mode `auto`. -/
def sampleInputNoSend : CreateInput :=
  { emailInput := sampleEmailInput, generateText := .auto, send := false }

/-- Witness: `create_send_success` at a concrete environment and input. -/
theorem create_send_success_witness :
    ∃ r, (Create sampleEnv [] sampleInputSend).result = .ok r ∧
      r.emailType = .sent ∧
      r.messageID = "sent-message-id" ∧
      r.timeUpdated =
        (mkDraftRecord sampleInputSend "text" sampleEnv.draftSuffix
          sampleEnv.now).timeUpdated ∧
      (Create sampleEnv [] sampleInputSend).trace.transactCalls =
        [[TransactItem.deleteKey tableName
            (mkDraftRecord sampleInputSend "text" sampleEnv.draftSuffix
              sampleEnv.now).messageID,
          TransactItem.putRecord tableName r]] :=
  create_send_success sampleEnv [] sampleInputSend "text" "sent-message-id"
    rfl rfl rfl rfl rfl

/-- Witness: `create_put_error` at a concrete environment and input. -/
theorem create_put_error_witness :
    (Create { sampleEnv with putItemErr := some Err.invalidInput } []
        sampleInputNoSend).result = .error Err.invalidInput ∧
    (Create { sampleEnv with putItemErr := some Err.invalidInput } []
        sampleInputNoSend).trace.sendCalls = 0 ∧
    (Create { sampleEnv with putItemErr := some Err.invalidInput } []
        sampleInputNoSend).trace.transactCalls = [] ∧
    (Create { sampleEnv with putItemErr := some Err.invalidInput } []
        sampleInputNoSend).store = [] :=
  create_put_error { sampleEnv with putItemErr := some Err.invalidInput } []
    sampleInputNoSend "text" Err.invalidInput rfl rfl

/-- Witness: `create_send_failure` at a concrete environment and input. -/
theorem create_send_failure_witness :
    (Create { sampleEnv with sendEmail := .error (Err.other "err") } []
        sampleInputSend).result = .error (Err.other "err") ∧
    (Create { sampleEnv with sendEmail := .error (Err.other "err") } []
        sampleInputSend).trace.transactCalls = [] ∧
    (Create { sampleEnv with sendEmail := .error (Err.other "err") } []
        sampleInputSend).store =
      storePut []
        (mkDraftRecord sampleInputSend "text" sampleEnv.draftSuffix
          sampleEnv.now).messageID
        (mkDraftRecord sampleInputSend "text" sampleEnv.draftSuffix
          sampleEnv.now) ∧
    storeGet
        (Create { sampleEnv with sendEmail := .error (Err.other "err") } []
          sampleInputSend).store
        (mkDraftRecord sampleInputSend "text" sampleEnv.draftSuffix
          sampleEnv.now).messageID =
      some (mkDraftRecord sampleInputSend "text" sampleEnv.draftSuffix
        sampleEnv.now) :=
  create_send_failure { sampleEnv with sendEmail := .error (Err.other "err") }
    [] sampleInputSend "text" (Err.other "err") rfl rfl rfl rfl

/-- Witness: `create_transition_failure` at a concrete environment and
input. -/
theorem create_transition_failure_witness :
    (Create { sampleEnv with transactErr := some Err.transitionFailed } []
        sampleInputSend).result = .error Err.transitionFailed ∧
    storeGet
        (Create { sampleEnv with transactErr := some Err.transitionFailed } []
          sampleInputSend).store
        (mkDraftRecord sampleInputSend "text"
          { sampleEnv with transactErr := some Err.transitionFailed }.draftSuffix
          { sampleEnv with transactErr := some Err.transitionFailed }.now).messageID =
      some (mkDraftRecord sampleInputSend "text"
        { sampleEnv with transactErr := some Err.transitionFailed }.draftSuffix
        { sampleEnv with transactErr := some Err.transitionFailed }.now) ∧
    storeGet
        (Create { sampleEnv with transactErr := some Err.transitionFailed } []
          sampleInputSend).store "sent-message-id" = none ∧
    (Create { sampleEnv with transactErr := some Err.transitionFailed } []
        sampleInputSend).trace.sendCalls = 1 ∧
    (Create { sampleEnv with transactErr := some Err.transitionFailed } []
        sampleInputSend).trace.transactCalls.length = 1 :=
  create_transition_failure
    { sampleEnv with transactErr := some Err.transitionFailed } []
    sampleInputSend "text" "sent-message-id" Err.transitionFailed
    rfl rfl rfl rfl rfl rfl (by decide)

/-- Witness: `create_text_mode` at a concrete environment and input. -/
theorem create_text_mode_witness :
    (sampleInputNoSend.generateText = .off →
      ∃ r, (Create sampleEnv [] sampleInputNoSend).result = .ok r ∧
        r.text = sampleInputNoSend.emailInput.text) ∧
    (sampleInputNoSend.generateText = .auto →
      sampleInputNoSend.emailInput.text ≠ "" →
      ∃ r, (Create sampleEnv [] sampleInputNoSend).result = .ok r ∧
        r.text = sampleInputNoSend.emailInput.text) ∧
    (∀ t, sampleInputNoSend.generateText = .auto →
      sampleInputNoSend.emailInput.text = "" →
      sampleEnv.generateText sampleInputNoSend.emailInput.html = some t →
      ∃ r, (Create sampleEnv [] sampleInputNoSend).result = .ok r ∧
        r.text = t) ∧
    (∀ t, sampleInputNoSend.generateText = .on →
      sampleEnv.generateText sampleInputNoSend.emailInput.html = some t →
      ∃ r, (Create sampleEnv [] sampleInputNoSend).result = .ok r ∧
        r.text = t) :=
  create_text_mode sampleEnv [] sampleInputNoSend rfl rfl

/-- Witness: `create_textgen_failure` at a concrete environment and
input. -/
theorem create_textgen_failure_witness :
    (Create { sampleEnv with generateText := fun _ => none } []
        { emailInput := sampleEmailInput, generateText := .on,
          send := false }).result = .error Err.textGeneration :=
  create_textgen_failure { sampleEnv with generateText := fun _ => none } []
    { emailInput := sampleEmailInput, generateText := .on, send := false }
    (Or.inl rfl) rfl

/-! ## Listing fixtures and witnesses -/

/-- A concrete index table: one `sent#2022-03` partition, stored in
ascending sort-key order. -/
def sampleTable : List GSIIndex :=
  [⟨"m1", "sent#2022-03", "2022-03-01T00:00:00Z"⟩,
   ⟨"m2", "sent#2022-03", "2022-03-02T00:00:00Z"⟩,
   ⟨"m3", "sent#2022-03", "2022-03-03T00:00:00Z"⟩]

/-- A concrete listing input for the `sent#2022-03` partition. -/
def sampleListInput : listQueryInput :=
  { emailType := "sent"
    year := "2022"
    month := "03"
    order := "desc"
    lastEvaluatedKey := none }

/-- A concrete decoding step that always succeeds and preserves the
projected fields. -/
def sampleDecode : GSIIndex → Option TimeIndex := fun r =>
  some { messageID := r.messageID, emailType := .sent,
         timeUpdated := r.timeUpdated }

/-- Witness: `listByYearMonth_partition_order` at a concrete table and
input. -/
theorem listByYearMonth_partition_order_witness :
    (listQueryInputToQuery sampleListInput).keyValue =
      sampleListInput.emailType ++ "#" ++ sampleListInput.year ++ "-" ++
        sampleListInput.month ∧
    (listQueryInputToQuery sampleListInput).indexName = gsiIndexName ∧
    ∀ res, listByYearMonth sampleTable 2 sampleDecode sampleListInput =
        .ok res →
      (res.items.map (·.timeUpdated)).Pairwise
        (fun a b => keyLt b a = true) :=
  listByYearMonth_partition_order sampleTable 2 sampleDecode sampleListInput
    (by decide)
    (fun r t h => by
      simp only [sampleDecode, Option.some.injEq] at h
      subst h
      rfl)

/-- Witness: `listByYearMonth_decode_failure` at a concrete table holding
an undecodable raw record. -/
theorem listByYearMonth_decode_failure_witness :
    listByYearMonth
        [⟨"m1", "bogus#2022-03", "2022-03-01T00:00:00Z"⟩] 10
        GSIIndex.toTimeIndex
        { emailType := "bogus", year := "2022", month := "03",
          order := "", lastEvaluatedKey := none } =
      .error Err.decode :=
  listByYearMonth_decode_failure
    [⟨"m1", "bogus#2022-03", "2022-03-01T00:00:00Z"⟩] 10
    GSIIndex.toTimeIndex
    { emailType := "bogus", year := "2022", month := "03",
      order := "", lastEvaluatedKey := none }
    (by decide)

/-- Witness: `listByYearMonth_pagination` at a concrete table — the first
page of two records yields a token, the resumed page returns the remaining
record, and the concatenation equals the single wider scan. -/
theorem listByYearMonth_pagination_witness :
    listByYearMonth sampleTable (2 + 2) sampleDecode
        { sampleListInput with lastEvaluatedKey := none } =
      .ok { items :=
              [⟨"m3", .sent, "2022-03-03T00:00:00Z"⟩,
               ⟨"m2", .sent, "2022-03-02T00:00:00Z"⟩] ++
              [⟨"m1", .sent, "2022-03-01T00:00:00Z"⟩],
            lastEvaluatedKey := none } :=
  listByYearMonth_pagination sampleTable 2 2 sampleDecode sampleListInput
    (by decide) (by decide)
    { items := [⟨"m3", .sent, "2022-03-03T00:00:00Z"⟩,
                ⟨"m2", .sent, "2022-03-02T00:00:00Z"⟩],
      lastEvaluatedKey := some "2022-03-02T00:00:00Z" }
    { items := [⟨"m1", .sent, "2022-03-01T00:00:00Z"⟩],
      lastEvaluatedKey := none }
    "2022-03-02T00:00:00Z"
    rfl rfl rfl

end Mailbox
